import Mathlib

/-!
Verification development for the `typed-rest-api` pipeline entry point
(`src/index.ts`).

The file shallowly embeds the orchestration code of `typescriptRoutesToOpenApi`
and its helpers (`loadConfigFile`, `defaultConfigPath`, `defaultConfig` merging,
`overridePreviouslyGeneratedRoutesFile`, `_generateOpenApiDocument`,
`_generateRoutes`).  Filesystem effects (`existsSync`, `statSync`,
`readFileSync`, `writeFileSync`, `mkdirSync`) are modelled by an explicit
filesystem value threaded through the run, together with an event trace that
records, in order, every write, directory creation, diagnostics check and
route-extraction call.  External collaborators that live in other modules
(`ajv` validation, `checkProgramForErrors`, `getRoutes`,
`generateOpenApiDocument`, `generateRoutes`, `JSON.parse`) are parameters of
an environment record: the orchestration is verified for every behaviour of
those collaborators.  Fallible collaborators return `Except`, mirroring
functions that may throw.
-/

namespace TsRoutesToOpenApi

/-- A route discovered by extraction (`src/route.ts` is outside the embedded
module; only `method` and `path` matter to the claims here, the rest of the
route record is kept opaque in `data`). -/
structure Route where
  method : String
  path : String
  data : String
deriving DecidableEq, Repr

/-- The `ConfigType` record of `src/index.ts` (lines 36-54).  Optional fields
are `Option`; `none` models an absent key.  The `openapi` metadata block is
kept opaque as a `String`. -/
structure ConfigType where
  openapi : String
  tsConfigPath : Option String
  schemaOutputDir : Option String
  schemaOutputFileName : Option String
  routesOutputDir : Option String
  routesOutputFileName : Option String
  generateOpenApiSchema : Option Bool
  checkProgramForErrors : Option Bool
deriving DecidableEq, Repr

/-- A filesystem: an association list of regular files (path, content) plus a
list of existing directories. -/
structure FS where
  files : List (String × String)
  dirs : List String
deriving DecidableEq, Repr

/-- Content of the regular file at `p`, if one exists. -/
def FS.readFile (fs : FS) (p : String) : Option String :=
  (fs.files.find? (fun kv => kv.1 = p)).map (fun kv => kv.2)

/-- Node `fs.existsSync`: true if a regular file or a directory exists at `p`. -/
def existsSync (fs : FS) (p : String) : Bool :=
  (fs.readFile p).isSome || fs.dirs.contains p

/-- Node `statSync(p).isFile()` (only consulted after `existsSync`). -/
def statIsFile (fs : FS) (p : String) : Bool :=
  (fs.readFile p).isSome

/-- Node `fs.writeFileSync`: creates or fully replaces the file at `p`. -/
def writeFileSync (fs : FS) (p c : String) : FS :=
  { files := (p, c) :: fs.files.filter (fun kv => !(kv.1 = p)), dirs := fs.dirs }

/-- Node `fs.mkdirSync` (the `recursive` flag only matters for parents, which
no claim inspects). -/
def mkdirSync (fs : FS) (p : String) : FS :=
  { files := fs.files, dirs := p :: fs.dirs }

/-- Node `path.join` on already-normalised segments. -/
def pathJoin (a b : String) : String :=
  a ++ "/" ++ b

/-- Node `path.dirname`: everything before the last separator (`"."` when the
path has no separator, `"/"` when the only separator is leading). -/
def dirname (p : String) : String :=
  match p.toList.reverse.dropWhile (fun c => !(c = '/')) with
  | [] => "."
  | [_] => "/"
  | _ :: rest => String.mk rest.reverse

/-- Observable side effects of one run, in chronological order. -/
inductive Event where
  | write (p c : String)
  | mkdir (p : String)
  | checkProgram (p : String)
  | getRoutes (p : String)
deriving DecidableEq, Repr

/-- Filesystem plus the trace of effects performed so far. -/
structure RunState where
  fs : FS
  trace : List Event
deriving DecidableEq, Repr

/-- `writeFileSync` at the run level, recording the event. -/
def RunState.write (st : RunState) (p c : String) : RunState :=
  { fs := writeFileSync st.fs p c, trace := st.trace ++ [Event.write p c] }

/-- `mkdirSync` at the run level, recording the event. -/
def RunState.mkdir (st : RunState) (p : String) : RunState :=
  { fs := mkdirSync st.fs p, trace := st.trace ++ [Event.mkdir p] }

/-- Records the `checkProgramForErrors` call in the trace. -/
def RunState.noteCheck (st : RunState) (p : String) : RunState :=
  { fs := st.fs, trace := st.trace ++ [Event.checkProgram p] }

/-- Records the `getRoutes` call in the trace. -/
def RunState.noteGetRoutes (st : RunState) (p : String) : RunState :=
  { fs := st.fs, trace := st.trace ++ [Event.getRoutes p] }

/-- The external collaborators of `src/index.ts`, kept abstract: the process
working directory, the `ajv` validator and its error text, and the imported
functions from `./find_routes`, `./generators/openapi`, `./generators/routes`,
plus `JSON.parse`.  Fallible ones return `Except String`, modelling `throw`. -/
structure Env where
  cwd : String
  ajvValidate : ConfigType → Bool
  ajvErrors : ConfigType → String
  checkProgramForErrors : String → Except String Unit
  getRoutes : String → Except String (List Route)
  generateOpenApiDocument : List Route → String → Except String String
  generateRoutes : List Route → String → Except String String
  jsonParse : String → Except String ConfigType

/-- `{...defaultConfig, ...config}` (lines 56-74): every key present in
`config` wins, every absent key takes the `defaultConfig` value, which is
built from `process.cwd()`. -/
def mergeDefaults (cwd : String) (config : ConfigType) : ConfigType :=
  { openapi := config.openapi
    tsConfigPath := some (config.tsConfigPath.getD (pathJoin cwd "tsconfig.json"))
    schemaOutputDir := some (config.schemaOutputDir.getD cwd)
    schemaOutputFileName := some (config.schemaOutputFileName.getD "openapi.json")
    routesOutputDir := some (config.routesOutputDir.getD (pathJoin cwd "generated"))
    routesOutputFileName := some (config.routesOutputFileName.getD "routes.ts")
    generateOpenApiSchema := some (config.generateOpenApiSchema.getD true)
    checkProgramForErrors := some (config.checkProgramForErrors.getD true) }

/-- The merged configuration the pipeline actually runs with. -/
def mergedOf (env : Env) (config : ConfigType) : ConfigType :=
  mergeDefaults env.cwd config

/-- `config.tsConfigPath!` (line 88); the non-null assertion is modelled by
`getD ""` and never fires on a merged configuration. -/
def tsPathOf (config : ConfigType) : String :=
  (config.tsConfigPath).getD ""

/-- `path.join(config.routesOutputDir!, config.routesOutputFileName!)` as used
by `overridePreviouslyGeneratedRoutesFile` (lines 168-171). -/
def routesPlaceholderPathOf (config : ConfigType) : String :=
  pathJoin ((config.routesOutputDir).getD "") ((config.routesOutputFileName).getD "")

/-- `path.join(config.schemaOutputDir!, config.schemaOutputFileName!)` as used
by `_generateOpenApiDocument` (lines 123-126). -/
def schemaPathOf (config : ConfigType) : String :=
  pathJoin ((config.schemaOutputDir).getD "") ((config.schemaOutputFileName).getD "")

/-- `config.routesOutputDir || path.join(process.cwd(), 'generated')`
(lines 145-147): JavaScript `||` falls through on `undefined` and on the empty
string. -/
def routesDirOf (env : Env) (config : ConfigType) : String :=
  match config.routesOutputDir with
  | some d => if d = "" then pathJoin env.cwd "generated" else d
  | none => pathJoin env.cwd "generated"

/-- The path `_generateRoutes` writes to (lines 149-152). -/
def routesFilePathOf (env : Env) (config : ConfigType) : String :=
  pathJoin (routesDirOf env config) ((config.routesOutputFileName).getD "")

/-- The literal placeholder written over a previously generated routes file
(lines 174-183): a source file exporting an empty router. -/
def generatedRoutesPlaceholder : String :=
  "// This file was generated by typescript-routes-to-openapi\n\nimport express, \x7b Router \x7d from \x27express\x27;\n\nconst router: Router = express.Router();\n\nexport \x7b router as generatedRoutes \x7d;"

/-- `overridePreviouslyGeneratedRoutesFile` (lines 167-185): if a file exists
at the routes output path, fully replace it with the neutral placeholder;
otherwise do nothing. -/
def overridePreviouslyGeneratedRoutesFile (config : ConfigType) (st : RunState) : RunState :=
  if existsSync st.fs (routesPlaceholderPathOf config) then
    st.write (routesPlaceholderPathOf config) generatedRoutesPlaceholder
  else
    st

/-- `_generateOpenApiDocument` (lines 122-142): generate the document in
memory, create the output directory if missing, then write the document. -/
def _generateOpenApiDocument (env : Env) (config : ConfigType) (routes : List Route)
    (st : RunState) : Except (String × RunState) RunState :=
  match env.generateOpenApiDocument routes config.openapi with
  | Except.error e => Except.error (e, st)
  | Except.ok generatedOpenApiSchema =>
    Except.ok
      ((if existsSync st.fs (dirname (schemaPathOf config)) = false then
          st.mkdir (dirname (schemaPathOf config))
        else st).write (schemaPathOf config) generatedOpenApiSchema)

/-- `_generateRoutes` (lines 144-165): generate the routes source in memory,
create the output directory if missing, then write the file. -/
def _generateRoutes (env : Env) (config : ConfigType) (routes : List Route)
    (st : RunState) : Except (String × RunState) RunState :=
  match env.generateRoutes routes (routesDirOf env config) with
  | Except.error e => Except.error (e, st)
  | Except.ok generatedRoutesFile =>
    Except.ok
      ((if existsSync st.fs (routesDirOf env config) = false then
          st.mkdir (routesDirOf env config)
        else st).write (routesFilePathOf env config) generatedRoutesFile)

/-- Lines 94-100 of `typescriptRoutesToOpenApi`: route extraction, then the
document step when `config.generateOpenApiSchema ?? true`, then the routes
step. -/
def runExtraction (env : Env) (config : ConfigType) (st : RunState) :
    Except (String × RunState) RunState :=
  match env.getRoutes (tsPathOf config) with
  | Except.error e => Except.error (e, st.noteGetRoutes (tsPathOf config))
  | Except.ok routes =>
    match
      (if (config.generateOpenApiSchema).getD true then
        _generateOpenApiDocument env config routes (st.noteGetRoutes (tsPathOf config))
      else Except.ok (st.noteGetRoutes (tsPathOf config))) with
    | Except.error e => Except.error e
    | Except.ok st2 => _generateRoutes env config routes st2

/-- Lines 88-100: the optional diagnostics check (`if
(config.checkProgramForErrors)` is JavaScript truthiness, so an absent value
counts as false), then extraction and generation. -/
def runPipelineSteps (env : Env) (config : ConfigType) (st : RunState) :
    Except (String × RunState) RunState :=
  if (config.checkProgramForErrors).getD false then
    match env.checkProgramForErrors (tsPathOf config) with
    | Except.error e => Except.error (e, st.noteCheck (tsPathOf config))
    | Except.ok _ => runExtraction env config (st.noteCheck (tsPathOf config))
  else
    runExtraction env config st

/-- `defaultConfigPath` (lines 103-105). -/
def defaultConfigPath (env : Env) : String :=
  pathJoin env.cwd "typescript-routes-to-openapi.json"

/-- `loadConfigFile` (lines 107-120): reject a missing path, reject a path
that is not a regular file, otherwise return `JSON.parse` of the content
unchanged.  `path.resolve` is the identity here since the model treats all
paths as already resolved. -/
def loadConfigFile (env : Env) (fs : FS) (configPath : String) : Except String ConfigType :=
  if existsSync fs configPath = false then
    Except.error ("Config file does not exist: " ++ configPath)
  else if statIsFile fs configPath = false then
    Except.error ("Config needs to be a regular file: " ++ configPath)
  else
    env.jsonParse ((fs.readFile configPath).getD "")

/-- Lines 71-101 of `typescriptRoutesToOpenApi`, after the config has been
obtained: merge defaults, validate with `ajv` (throwing `Invalid config file`
on failure), override a previously generated routes file, then run the
pipeline steps. -/
def typescriptRoutesToOpenApiWith (env : Env) (st : RunState) (config0 : ConfigType) :
    Except (String × RunState) RunState :=
  if env.ajvValidate (mergeDefaults env.cwd config0) = false then
    Except.error ("Invalid config file: " ++ env.ajvErrors (mergeDefaults env.cwd config0), st)
  else
    runPipelineSteps env (mergeDefaults env.cwd config0)
      (overridePreviouslyGeneratedRoutesFile (mergeDefaults env.cwd config0) st)

/-- `typescriptRoutesToOpenApi` (lines 66-101): when no config is supplied,
load it from `defaultConfigPath()`; then merge, validate and run. -/
def typescriptRoutesToOpenApi (env : Env) (st : RunState) (config? : Option ConfigType) :
    Except (String × RunState) RunState :=
  match config? with
  | none =>
    match loadConfigFile env st.fs (defaultConfigPath env) with
    | Except.error e => Except.error (e, st)
    | Except.ok config => typescriptRoutesToOpenApiWith env st config
  | some config => typescriptRoutesToOpenApiWith env st config

/-- The trace of a finished run, successful or failed. -/
def traceOf : Except (String × RunState) RunState → List Event
  | Except.error es => es.2.trace
  | Except.ok st => st.trace

theorem find?_filter_ne (p q : String) (h : ¬ q = p) :
    ∀ l : List (String × String),
      List.find? (fun kv => kv.1 = q) (l.filter (fun kv => !(kv.1 = p))) =
      List.find? (fun kv => kv.1 = q) l := by
  intro l
  induction l with
  | nil => rfl
  | cons a l ih =>
    by_cases hap : a.1 = p
    · have haq : ¬ (a.1 = q) := by
        rw [hap]
        intro hq
        exact h hq.symm
      have hpq : ¬ (p = q) := fun hq => h hq.symm
      simp [List.filter_cons, hap, List.find?_cons, haq, hpq, ih]
    · by_cases haq : a.1 = q
      · simp [List.filter_cons, hap, List.find?_cons, haq, h]
      · simp [List.filter_cons, hap, List.find?_cons, haq, ih]

theorem readFile_writeFileSync_self (fs : FS) (p c : String) :
    (writeFileSync fs p c).readFile p = some c := by
  simp [FS.readFile, writeFileSync, List.find?_cons]

theorem readFile_writeFileSync_ne (fs : FS) (p c q : String) (h : ¬ q = p) :
    (writeFileSync fs p c).readFile q = fs.readFile q := by
  simp only [FS.readFile, writeFileSync]
  rw [List.find?_cons]
  have hpq : ¬ (p = q) := fun hq => h hq.symm
  simp [hpq, find?_filter_ne p q h]

theorem readFile_mkdirSync (fs : FS) (p q : String) :
    (mkdirSync fs p).readFile q = fs.readFile q := rfl

/-- Modelled from the spec: the ordering the OpenApiAssembler
(`src/generators/openapi`, a module not present under `src/`) uses on routes —
"stable sort of routes by method then path" (spec 4.4). -/
def routeLe (a b : Route) : Prop :=
  a.method < b.method ∨ (a.method = b.method ∧ a.path ≤ b.path)

instance : DecidableRel routeLe := fun a b => by
  unfold routeLe
  infer_instance

instance : IsTotal Route routeLe := by
  constructor
  intro a b
  rcases lt_trichotomy a.method b.method with h | h | h
  · exact Or.inl (Or.inl h)
  · rcases le_total a.path b.path with hp | hp
    · exact Or.inl (Or.inr ⟨h, hp⟩)
    · exact Or.inr (Or.inr ⟨h.symm, hp⟩)
  · exact Or.inr (Or.inl h)

instance : IsTrans Route routeLe := by
  constructor
  intro a b c hab hbc
  rcases hab with h1 | ⟨h1, hp1⟩
  · rcases hbc with h2 | ⟨h2, hp2⟩
    · exact Or.inl (h1.trans h2)
    · exact Or.inl (by rw [← h2]; exact h1)
  · rcases hbc with h2 | ⟨h2, hp2⟩
    · exact Or.inl (by rw [h1]; exact h2)
    · exact Or.inr ⟨h1.trans h2, hp1.trans hp2⟩

/-- Modelled from the spec: the sort the OpenApiAssembler applies to the
discovered routes before serialization (spec 4.4); insertion sort is a stable
sort. -/
def sortRoutes (routes : List Route) : List Route :=
  List.insertionSort routeLe routes

/-- Modelled from the spec: the assembled contract `Document` — the sorted
route-to-operation mapping, the registry's named entries and the
caller-supplied metadata (spec section 3); registry and metadata are kept
opaque. -/
structure DocumentSpec where
  sortedRoutes : List Route
  registry : String
  metadata : String
deriving DecidableEq, Repr

/-- Modelled from the spec: `assemble(routes, registry, metadata)` of the
OpenApiAssembler (`src/generators/openapi`, not under `src/`): sorts the
routes by method then path and packages them with the registry entries and
metadata (spec 4.4). -/
def assembleDocumentSpec (routes : List Route) (registry metadata : String) : DocumentSpec :=
  { sortedRoutes := sortRoutes routes, registry := registry, metadata := metadata }

/-- One serialized operation entry. -/
def serializeRoute (r : Route) : String :=
  r.method ++ " " ++ r.path ++ " " ++ r.data

/-- Modelled from the spec: the byte serialization of an assembled `Document`
(`src/generators/openapi`, not under `src/`): a pure fold over the document's
sorted routes, registry and metadata. -/
def serializeDocumentSpec (d : DocumentSpec) : String :=
  d.metadata ++ (d.sortedRoutes.map serializeRoute).foldl (fun acc s => acc ++ "\n" ++ s) "" ++ "\n" ++ d.registry

theorem traceOf_genDoc_extends (env : Env) (config : ConfigType) (routes : List Route)
    (st : RunState) :
    ∃ t, traceOf (_generateOpenApiDocument env config routes st) = st.trace ++ t ∧
      ∀ e ∈ t, (∃ c, e = Event.write (schemaPathOf config) c) ∨ (∃ q, e = Event.mkdir q) := by
  unfold _generateOpenApiDocument
  cases hg : env.generateOpenApiDocument routes config.openapi with
  | error e =>
    refine ⟨[], by simp [traceOf], by simp⟩
  | ok doc =>
    by_cases hd : existsSync st.fs (dirname (schemaPathOf config)) = false
    · refine ⟨[Event.mkdir (dirname (schemaPathOf config)), Event.write (schemaPathOf config) doc],
        ?_, ?_⟩
      · simp [traceOf, RunState.mkdir, RunState.write, hd]
      · intro e he
        simp only [List.mem_cons, List.not_mem_nil, or_false] at he
        rcases he with rfl | rfl
        · exact Or.inr ⟨_, rfl⟩
        · exact Or.inl ⟨doc, rfl⟩
    · refine ⟨[Event.write (schemaPathOf config) doc], ?_, ?_⟩
      · simp [traceOf, RunState.write, hd]
      · intro e he
        simp only [List.mem_cons, List.not_mem_nil, or_false] at he
        rcases he with rfl
        exact Or.inl ⟨doc, rfl⟩

theorem traceOf_genRoutes_extends (env : Env) (config : ConfigType) (routes : List Route)
    (st : RunState) :
    ∃ t, traceOf (_generateRoutes env config routes st) = st.trace ++ t ∧
      ∀ e ∈ t, (∃ c, e = Event.write (routesFilePathOf env config) c) ∨ (∃ q, e = Event.mkdir q) := by
  unfold _generateRoutes
  cases hg : env.generateRoutes routes (routesDirOf env config) with
  | error e =>
    refine ⟨[], by simp [traceOf], by simp⟩
  | ok out =>
    by_cases hd : existsSync st.fs (routesDirOf env config) = false
    · refine ⟨[Event.mkdir (routesDirOf env config), Event.write (routesFilePathOf env config) out],
        ?_, ?_⟩
      · simp [traceOf, RunState.mkdir, RunState.write, hd]
      · intro e he
        simp only [List.mem_cons, List.not_mem_nil, or_false] at he
        rcases he with rfl | rfl
        · exact Or.inr ⟨_, rfl⟩
        · exact Or.inl ⟨out, rfl⟩
    · refine ⟨[Event.write (routesFilePathOf env config) out], ?_, ?_⟩
      · simp [traceOf, RunState.write, hd]
      · intro e he
        simp only [List.mem_cons, List.not_mem_nil, or_false] at he
        rcases he with rfl
        exact Or.inl ⟨out, rfl⟩

theorem traceOf_runExtraction_extends (env : Env) (config : ConfigType) (st : RunState) :
    ∃ t, traceOf (runExtraction env config st) =
        st.trace ++ (Event.getRoutes (tsPathOf config) :: t) ∧
      ∀ e ∈ t,
        ((∃ c, e = Event.write (schemaPathOf config) c) ∧
          (config.generateOpenApiSchema).getD true = true)
        ∨ (∃ c, e = Event.write (routesFilePathOf env config) c)
        ∨ (∃ q, e = Event.mkdir q) := by
  unfold runExtraction
  cases hr : env.getRoutes (tsPathOf config) with
  | error e =>
    refine ⟨[], by simp [traceOf, RunState.noteGetRoutes], by simp⟩
  | ok routes =>
    simp only []
    by_cases htog : (config.generateOpenApiSchema).getD true = true
    · rw [if_pos htog]
      obtain ⟨t1, ht1, hall1⟩ :=
        traceOf_genDoc_extends env config routes (st.noteGetRoutes (tsPathOf config))
      cases hdoc : _generateOpenApiDocument env config routes (st.noteGetRoutes (tsPathOf config)) with
      | error e =>
        rw [hdoc] at ht1
        refine ⟨t1, ?_, ?_⟩
        · simpa [traceOf, RunState.noteGetRoutes] using ht1
        · intro e he
          rcases hall1 e he with h | h
          · exact Or.inl ⟨h, htog⟩
          · exact Or.inr (Or.inr h)
      | ok st2 =>
        rw [hdoc] at ht1
        obtain ⟨t2, ht2, hall2⟩ := traceOf_genRoutes_extends env config routes st2
        have hst2 : st2.trace = st.trace ++ (Event.getRoutes (tsPathOf config) :: t1) := by
          simpa [traceOf, RunState.noteGetRoutes] using ht1
        refine ⟨t1 ++ t2, ?_, ?_⟩
        · rw [ht2, hst2]
          simp
        · intro e he
          rcases List.mem_append.mp he with h | h
          · rcases hall1 e h with h1 | h1
            · exact Or.inl ⟨h1, htog⟩
            · exact Or.inr (Or.inr h1)
          · rcases hall2 e h with h1 | h1
            · exact Or.inr (Or.inl h1)
            · exact Or.inr (Or.inr h1)
    · rw [if_neg htog]
      obtain ⟨t2, ht2, hall2⟩ :=
        traceOf_genRoutes_extends env config routes (st.noteGetRoutes (tsPathOf config))
      refine ⟨t2, ?_, ?_⟩
      · simpa [traceOf, RunState.noteGetRoutes] using ht2
      · intro e he
        rcases hall2 e he with h | h
        · exact Or.inr (Or.inl h)
        · exact Or.inr (Or.inr h)

theorem traceOf_runPipelineSteps_extends (env : Env) (config : ConfigType) (st : RunState) :
    ∃ t, traceOf (runPipelineSteps env config st) = st.trace ++ t ∧
      ∀ e ∈ t,
        (e = Event.checkProgram (tsPathOf config) ∧
          (config.checkProgramForErrors).getD false = true)
        ∨ e = Event.getRoutes (tsPathOf config)
        ∨ ((∃ c, e = Event.write (schemaPathOf config) c) ∧
            (config.generateOpenApiSchema).getD true = true)
        ∨ (∃ c, e = Event.write (routesFilePathOf env config) c)
        ∨ (∃ q, e = Event.mkdir q) := by
  unfold runPipelineSteps
  by_cases htog : (config.checkProgramForErrors).getD false = true
  · rw [if_pos htog]
    cases hc : env.checkProgramForErrors (tsPathOf config) with
    | error e =>
      refine ⟨[Event.checkProgram (tsPathOf config)], by simp [traceOf, RunState.noteCheck], ?_⟩
      intro e he
      simp only [List.mem_cons, List.not_mem_nil, or_false] at he
      rcases he with rfl
      exact Or.inl ⟨rfl, htog⟩
    | ok u =>
      obtain ⟨t1, ht1, hall1⟩ :=
        traceOf_runExtraction_extends env config (st.noteCheck (tsPathOf config))
      refine ⟨Event.checkProgram (tsPathOf config) :: Event.getRoutes (tsPathOf config) :: t1,
        ?_, ?_⟩
      · rw [ht1]
        simp [RunState.noteCheck]
      · intro e he
        simp only [List.mem_cons] at he
        rcases he with rfl | rfl | he
        · exact Or.inl ⟨rfl, htog⟩
        · exact Or.inr (Or.inl rfl)
        · rcases hall1 e he with h | h | h
          · exact Or.inr (Or.inr (Or.inl h))
          · exact Or.inr (Or.inr (Or.inr (Or.inl h)))
          · exact Or.inr (Or.inr (Or.inr (Or.inr h)))
  · rw [if_neg htog]
    obtain ⟨t1, ht1, hall1⟩ := traceOf_runExtraction_extends env config st
    refine ⟨Event.getRoutes (tsPathOf config) :: t1, ht1, ?_⟩
    intro e he
    simp only [List.mem_cons] at he
    rcases he with rfl | he
    · exact Or.inr (Or.inl rfl)
    · rcases hall1 e he with h | h | h
      · exact Or.inr (Or.inr (Or.inl h))
      · exact Or.inr (Or.inr (Or.inr (Or.inl h)))
      · exact Or.inr (Or.inr (Or.inr (Or.inr h)))

theorem _generateRoutes_ok_readFile (env : Env) (config : ConfigType) (routes : List Route)
    (st st' : RunState) (h : _generateRoutes env config routes st = Except.ok st') :
    ∃ out, env.generateRoutes routes (routesDirOf env config) = Except.ok out ∧
      st'.fs.readFile (routesFilePathOf env config) = some out := by
  unfold _generateRoutes at h
  cases hg : env.generateRoutes routes (routesDirOf env config) with
  | error e =>
    rw [hg] at h
    exact absurd h (by simp)
  | ok out =>
    rw [hg] at h
    simp only [Except.ok.injEq] at h
    subst h
    refine ⟨out, rfl, ?_⟩
    by_cases hd : existsSync st.fs (routesDirOf env config) = false
    · simp [RunState.write, RunState.mkdir, hd, readFile_writeFileSync_self]
    · simp [RunState.write, hd, readFile_writeFileSync_self]

theorem _generateRoutes_ok_readFile_ne (env : Env) (config : ConfigType) (routes : List Route)
    (st st' : RunState) (q : String) (hq : ¬ q = routesFilePathOf env config)
    (h : _generateRoutes env config routes st = Except.ok st') :
    st'.fs.readFile q = st.fs.readFile q := by
  unfold _generateRoutes at h
  cases hg : env.generateRoutes routes (routesDirOf env config) with
  | error e =>
    rw [hg] at h
    exact absurd h (by simp)
  | ok out =>
    rw [hg] at h
    simp only [Except.ok.injEq] at h
    subst h
    by_cases hd : existsSync st.fs (routesDirOf env config) = false
    · simp [RunState.write, RunState.mkdir, hd, readFile_writeFileSync_ne _ _ _ _ hq,
        readFile_mkdirSync]
    · simp [RunState.write, hd, readFile_writeFileSync_ne _ _ _ _ hq]

theorem runExtraction_ok_readFile (env : Env) (config : ConfigType) (st st' : RunState)
    (h : runExtraction env config st = Except.ok st') :
    ∃ routes out, env.getRoutes (tsPathOf config) = Except.ok routes ∧
      env.generateRoutes routes (routesDirOf env config) = Except.ok out ∧
      st'.fs.readFile (routesFilePathOf env config) = some out := by
  unfold runExtraction at h
  cases hr : env.getRoutes (tsPathOf config) with
  | error e =>
    rw [hr] at h
    exact absurd h (by simp)
  | ok routes =>
    rw [hr] at h
    simp only [] at h
    cases hmid :
      (if (config.generateOpenApiSchema).getD true then
        _generateOpenApiDocument env config routes (st.noteGetRoutes (tsPathOf config))
      else Except.ok (st.noteGetRoutes (tsPathOf config))) with
    | error e =>
      rw [hmid] at h
      exact absurd h (by simp)
    | ok st2 =>
      rw [hmid] at h
      obtain ⟨out, hout, hread⟩ := _generateRoutes_ok_readFile env config routes st2 st' h
      exact ⟨routes, out, rfl, hout, hread⟩

theorem runPipelineSteps_ok_readFile (env : Env) (config : ConfigType) (st st' : RunState)
    (h : runPipelineSteps env config st = Except.ok st') :
    ∃ routes out, env.getRoutes (tsPathOf config) = Except.ok routes ∧
      env.generateRoutes routes (routesDirOf env config) = Except.ok out ∧
      st'.fs.readFile (routesFilePathOf env config) = some out := by
  unfold runPipelineSteps at h
  by_cases htog : (config.checkProgramForErrors).getD false = true
  · rw [if_pos htog] at h
    cases hc : env.checkProgramForErrors (tsPathOf config) with
    | error e =>
      rw [hc] at h
      exact absurd h (by simp)
    | ok u =>
      rw [hc] at h
      exact runExtraction_ok_readFile env config _ st' h
  · rw [if_neg htog] at h
    exact runExtraction_ok_readFile env config st st' h

theorem _generateOpenApiDocument_error_state (env : Env) (config : ConfigType)
    (routes : List Route) (st : RunState) (msg : String) (st' : RunState)
    (h : _generateOpenApiDocument env config routes st = Except.error (msg, st')) :
    env.generateOpenApiDocument routes config.openapi = Except.error msg ∧ st' = st := by
  unfold _generateOpenApiDocument at h
  cases hg : env.generateOpenApiDocument routes config.openapi with
  | error e =>
    rw [hg] at h
    simp only [Except.error.injEq, Prod.mk.injEq] at h
    exact ⟨by rw [h.1], h.2.symm⟩
  | ok doc =>
    rw [hg] at h
    exact absurd h (by simp)

theorem _generateOpenApiDocument_ok_fs (env : Env) (config : ConfigType)
    (routes : List Route) (st st' : RunState)
    (h : _generateOpenApiDocument env config routes st = Except.ok st') :
    ∃ doc, env.generateOpenApiDocument routes config.openapi = Except.ok doc ∧
      st'.fs = writeFileSync
        (if existsSync st.fs (dirname (schemaPathOf config)) = false then
          mkdirSync st.fs (dirname (schemaPathOf config)) else st.fs)
        (schemaPathOf config) doc := by
  unfold _generateOpenApiDocument at h
  cases hg : env.generateOpenApiDocument routes config.openapi with
  | error e =>
    rw [hg] at h
    exact absurd h (by simp)
  | ok doc =>
    rw [hg] at h
    simp only [Except.ok.injEq] at h
    subst h
    refine ⟨doc, rfl, ?_⟩
    by_cases hd : existsSync st.fs (dirname (schemaPathOf config)) = false
    · simp [RunState.write, RunState.mkdir, hd]
    · simp [RunState.write, hd]

theorem _generateRoutes_error_state (env : Env) (config : ConfigType) (routes : List Route)
    (st : RunState) (msg : String) (st' : RunState)
    (h : _generateRoutes env config routes st = Except.error (msg, st')) :
    env.generateRoutes routes (routesDirOf env config) = Except.error msg ∧ st' = st := by
  unfold _generateRoutes at h
  cases hg : env.generateRoutes routes (routesDirOf env config) with
  | error e =>
    rw [hg] at h
    simp only [Except.error.injEq, Prod.mk.injEq] at h
    exact ⟨by rw [h.1], h.2.symm⟩
  | ok out =>
    rw [hg] at h
    exact absurd h (by simp)

theorem runExtraction_error_fs (env : Env) (config : ConfigType) (st : RunState)
    (msg : String) (st' : RunState)
    (h : runExtraction env config st = Except.error (msg, st')) :
    st'.fs = st.fs ∨
    ∃ routes doc,
      env.getRoutes (tsPathOf config) = Except.ok routes ∧
      env.generateOpenApiDocument routes config.openapi = Except.ok doc ∧
      (config.generateOpenApiSchema).getD true = true ∧
      st'.fs = writeFileSync
        (if existsSync st.fs (dirname (schemaPathOf config)) = false then
          mkdirSync st.fs (dirname (schemaPathOf config)) else st.fs)
        (schemaPathOf config) doc := by
  unfold runExtraction at h
  cases hr : env.getRoutes (tsPathOf config) with
  | error e =>
    rw [hr] at h
    simp only [Except.error.injEq, Prod.mk.injEq] at h
    exact Or.inl (by rw [← h.2]; rfl)
  | ok routes =>
    rw [hr] at h
    simp only [] at h
    by_cases htog : (config.generateOpenApiSchema).getD true = true
    · rw [if_pos htog] at h
      cases hmid : _generateOpenApiDocument env config routes (st.noteGetRoutes (tsPathOf config)) with
      | error e2 =>
        rw [hmid] at h
        simp only [Except.error.injEq] at h
        rw [h] at hmid
        have hst := (_generateOpenApiDocument_error_state env config routes _ msg st' hmid).2
        exact Or.inl (by rw [hst]; rfl)
      | ok st2 =>
        rw [hmid] at h
        have hst := (_generateRoutes_error_state env config routes st2 msg st' h).2
        obtain ⟨doc, hdoc, hfs⟩ := _generateOpenApiDocument_ok_fs env config routes _ st2 hmid
        exact Or.inr ⟨routes, doc, rfl, hdoc, htog, by rw [hst]; exact hfs⟩
    · rw [if_neg htog] at h
      have hst := (_generateRoutes_error_state env config routes _ msg st' h).2
      exact Or.inl (by rw [hst]; rfl)

theorem runPipelineSteps_error_fs (env : Env) (config : ConfigType) (st : RunState)
    (msg : String) (st' : RunState)
    (h : runPipelineSteps env config st = Except.error (msg, st')) :
    st'.fs = st.fs ∨
    ∃ routes doc,
      env.getRoutes (tsPathOf config) = Except.ok routes ∧
      env.generateOpenApiDocument routes config.openapi = Except.ok doc ∧
      (config.generateOpenApiSchema).getD true = true ∧
      st'.fs = writeFileSync
        (if existsSync st.fs (dirname (schemaPathOf config)) = false then
          mkdirSync st.fs (dirname (schemaPathOf config)) else st.fs)
        (schemaPathOf config) doc := by
  unfold runPipelineSteps at h
  by_cases htog : (config.checkProgramForErrors).getD false = true
  · rw [if_pos htog] at h
    cases hc : env.checkProgramForErrors (tsPathOf config) with
    | error e =>
      rw [hc] at h
      simp only [Except.error.injEq, Prod.mk.injEq] at h
      exact Or.inl (by rw [← h.2]; rfl)
    | ok u =>
      rw [hc] at h
      exact runExtraction_error_fs env config (st.noteCheck (tsPathOf config)) msg st' h
  · rw [if_neg htog] at h
    exact runExtraction_error_fs env config st msg st' h

theorem traceOf_runPipelineSteps_check_first (env : Env) (config : ConfigType) (st : RunState)
    (ht : (config.checkProgramForErrors).getD false = true) :
    ∃ t, traceOf (runPipelineSteps env config st) =
      st.trace ++ (Event.checkProgram (tsPathOf config) :: t) := by
  unfold runPipelineSteps
  rw [if_pos ht]
  cases hc : env.checkProgramForErrors (tsPathOf config) with
  | error e =>
    exact ⟨[], by simp [traceOf, RunState.noteCheck]⟩
  | ok u =>
    obtain ⟨t1, ht1, _⟩ :=
      traceOf_runExtraction_extends env config (st.noteCheck (tsPathOf config))
    refine ⟨Event.getRoutes (tsPathOf config) :: t1, ?_⟩
    rw [ht1]
    simp [RunState.noteCheck]

/-- The filesystem after the placeholder-override step of a run started on
`fs` with the supplied configuration. -/
def overriddenFs (env : Env) (config : ConfigType) (fs : FS) : FS :=
  (overridePreviouslyGeneratedRoutesFile (mergedOf env config) ⟨fs, []⟩).fs

/-- The filesystem after the contract document `doc` has additionally been
written on top of the override state. -/
def schemaWrittenFs (env : Env) (config : ConfigType) (fs : FS) (doc : String) : FS :=
  writeFileSync
    (if existsSync (overriddenFs env config fs)
          (dirname (schemaPathOf (mergedOf env config))) = false then
      mkdirSync (overriddenFs env config fs) (dirname (schemaPathOf (mergedOf env config)))
    else overriddenFs env config fs)
    (schemaPathOf (mergedOf env config)) doc

/-- A collaborator environment in which route extraction throws and every
other collaborator succeeds. -/
def envExtractionFails : Env :=
  { cwd := "/proj"
    ajvValidate := fun _ => true
    ajvErrors := fun _ => ""
    checkProgramForErrors := fun _ => Except.ok ()
    getRoutes := fun _ => Except.error "extraction failed"
    generateOpenApiDocument := fun _ _ => Except.ok "document"
    generateRoutes := fun _ _ => Except.ok "routes source"
    jsonParse := fun _ => Except.error "unused" }

/-- A configuration supplying explicit output locations and opting out of the
diagnostics check. -/
def cfgExplicit : ConfigType :=
  { openapi := "meta"
    tsConfigPath := some "/proj/tsconfig.json"
    schemaOutputDir := some "/proj/out"
    schemaOutputFileName := some "openapi.json"
    routesOutputDir := some "/proj/generated"
    routesOutputFileName := some "routes.ts"
    generateOpenApiSchema := some true
    checkProgramForErrors := some false }

/-- A filesystem holding a previously generated routes file. -/
def fsWithOldRoutes : FS :=
  { files := [("/proj/generated/routes.ts", "// old generated routes")]
    dirs := ["/proj/generated"] }

/-- The state in which the failing run of `envExtractionFails` on
`fsWithOldRoutes` ends. -/
def failedRunState : RunState :=
  { fs := { files := [("/proj/generated/routes.ts", generatedRoutesPlaceholder)]
            dirs := ["/proj/generated"] }
    trace := [Event.write "/proj/generated/routes.ts" generatedRoutesPlaceholder,
              Event.getRoutes "/proj/tsconfig.json"] }

/-- **C1, counterexample.** A run in which route extraction throws fails, yet
the pre-existing routes output file has already been modified (replaced by the
neutral placeholder) before the failure: a failure during computation does not
leave the output files untouched, contradicting the claim that a failing run
has written or modified no output file. -/
theorem failingRunModifiesOutput :
    typescriptRoutesToOpenApi envExtractionFails ⟨fsWithOldRoutes, []⟩ (some cfgExplicit) =
      Except.error ("extraction failed", failedRunState) ∧
    fsWithOldRoutes.readFile "/proj/generated/routes.ts" = some "// old generated routes" ∧
    failedRunState.fs.readFile "/proj/generated/routes.ts" = some generatedRoutesPlaceholder ∧
    ¬ generatedRoutesPlaceholder = "// old generated routes" := by
  refine ⟨rfl, rfl, rfl, by decide⟩

/-- **C1, amended.** Both artifacts are each computed in memory before their
own write, but a failing run may already have modified output files: on any
failure the filesystem is in exactly one of three states — untouched (failure
at config load or validation), the placeholder override of a pre-existing
routes file (failure during diagnostics, extraction, document generation, or
routes generation when the document step is skipped or precedes it), or
additionally the completely written contract document (failure during routes
source generation).  No other file is ever touched by a failing run, and
every modification is a complete artifact, never a partial one. -/
theorem failedRunWritesAreConfined (env : Env) (fs : FS) (config : ConfigType)
    (msg : String) (st' : RunState)
    (h : typescriptRoutesToOpenApi env ⟨fs, []⟩ (some config) = Except.error (msg, st')) :
    st'.fs = fs ∨
    st'.fs = overriddenFs env config fs ∨
    ∃ routes doc,
      env.getRoutes (tsPathOf (mergedOf env config)) = Except.ok routes ∧
      env.generateOpenApiDocument routes (mergedOf env config).openapi = Except.ok doc ∧
      st'.fs = schemaWrittenFs env config fs doc := by
  unfold typescriptRoutesToOpenApi typescriptRoutesToOpenApiWith at h
  simp only [] at h
  by_cases hv : env.ajvValidate (mergeDefaults env.cwd config) = false
  · rw [if_pos hv] at h
    simp only [Except.error.injEq, Prod.mk.injEq] at h
    exact Or.inl (by rw [← h.2])
  · rw [if_neg hv] at h
    rcases runPipelineSteps_error_fs env (mergeDefaults env.cwd config)
        (overridePreviouslyGeneratedRoutesFile (mergeDefaults env.cwd config) ⟨fs, []⟩)
        msg st' h with h1 | ⟨routes, doc, hr, hdoc, _, hfs⟩
    · exact Or.inr (Or.inl h1)
    · exact Or.inr (Or.inr ⟨routes, doc, hr, hdoc, hfs⟩)

/-- Witness for `failedRunWritesAreConfined` at the concrete failing run of
`envExtractionFails`. -/
theorem failedRunWritesAreConfinedWitness :
    failedRunState.fs = fsWithOldRoutes ∨
    failedRunState.fs = overriddenFs envExtractionFails cfgExplicit fsWithOldRoutes ∨
    ∃ routes doc,
      envExtractionFails.getRoutes (tsPathOf (mergedOf envExtractionFails cfgExplicit)) =
        Except.ok routes ∧
      envExtractionFails.generateOpenApiDocument routes
        (mergedOf envExtractionFails cfgExplicit).openapi = Except.ok doc ∧
      failedRunState.fs = schemaWrittenFs envExtractionFails cfgExplicit fsWithOldRoutes doc :=
  failedRunWritesAreConfined envExtractionFails fsWithOldRoutes cfgExplicit
    "extraction failed" failedRunState rfl

/-- **C2.** In every validated run on a filesystem that already has a file at
the configured routes output path, the very first effect of the pipeline is
overwriting that file with the neutral placeholder (a source file exporting an
empty router) — before the diagnostics check, route extraction, and
regeneration, all of which can only appear later in the trace. -/
theorem placeholderWrittenFirst (env : Env) (fs : FS) (config : ConfigType)
    (hv : env.ajvValidate (mergeDefaults env.cwd config) = true)
    (hex : existsSync fs (routesPlaceholderPathOf (mergeDefaults env.cwd config)) = true) :
    ∃ t, traceOf (typescriptRoutesToOpenApi env ⟨fs, []⟩ (some config)) =
      Event.write (routesPlaceholderPathOf (mergeDefaults env.cwd config))
        generatedRoutesPlaceholder :: t := by
  have hv' : ¬ env.ajvValidate (mergeDefaults env.cwd config) = false := by
    simp [hv]
  unfold typescriptRoutesToOpenApi typescriptRoutesToOpenApiWith
  simp only []
  rw [if_neg hv']
  obtain ⟨t, ht, _⟩ := traceOf_runPipelineSteps_extends env (mergeDefaults env.cwd config)
      (overridePreviouslyGeneratedRoutesFile (mergeDefaults env.cwd config) ⟨fs, []⟩)
  refine ⟨t, ?_⟩
  rw [ht]
  simp [overridePreviouslyGeneratedRoutesFile, hex, RunState.write]

/-- Witness for `placeholderWrittenFirst` at a concrete run holding a
previously generated routes file. -/
theorem placeholderWrittenFirstWitness :
    ∃ t, traceOf (typescriptRoutesToOpenApi envExtractionFails ⟨fsWithOldRoutes, []⟩
        (some cfgExplicit)) =
      Event.write (routesPlaceholderPathOf (mergeDefaults envExtractionFails.cwd cfgExplicit))
        generatedRoutesPlaceholder :: t :=
  placeholderWrittenFirst envExtractionFails fsWithOldRoutes cfgExplicit rfl rfl

/-- **C3.** In every validated run: with the diagnostics toggle enabled, the
check is the first thing after the placeholder override — in particular before
route extraction — and if the check throws, the pipeline halts in a state
whose trace records only the override and the check, so `getRoutes` was never
invoked; with the toggle disabled, no diagnostics check ever appears in the
trace and the run result does not depend on the checker at all. -/
theorem diagnosticsGate (env : Env) (fs : FS) (config : ConfigType)
    (hv : env.ajvValidate (mergeDefaults env.cwd config) = true) :
    ((mergeDefaults env.cwd config).checkProgramForErrors = some true →
      (∃ t, traceOf (typescriptRoutesToOpenApi env ⟨fs, []⟩ (some config)) =
        (overridePreviouslyGeneratedRoutesFile (mergeDefaults env.cwd config) ⟨fs, []⟩).trace ++
          (Event.checkProgram (tsPathOf (mergeDefaults env.cwd config)) :: t)) ∧
      (∀ e, env.checkProgramForErrors (tsPathOf (mergeDefaults env.cwd config)) = Except.error e →
        typescriptRoutesToOpenApi env ⟨fs, []⟩ (some config) =
          Except.error (e,
            { fs := (overridePreviouslyGeneratedRoutesFile (mergeDefaults env.cwd config) ⟨fs, []⟩).fs
              trace :=
                (overridePreviouslyGeneratedRoutesFile (mergeDefaults env.cwd config) ⟨fs, []⟩).trace ++
                  [Event.checkProgram (tsPathOf (mergeDefaults env.cwd config))] }))) ∧
    ((mergeDefaults env.cwd config).checkProgramForErrors = some false →
      (∀ p, ¬ Event.checkProgram p ∈
        traceOf (typescriptRoutesToOpenApi env ⟨fs, []⟩ (some config))) ∧
      (∀ f, typescriptRoutesToOpenApi { env with checkProgramForErrors := f } ⟨fs, []⟩
          (some config) =
        typescriptRoutesToOpenApi env ⟨fs, []⟩ (some config))) := by
  have hv' : ¬ env.ajvValidate (mergeDefaults env.cwd config) = false := by
    simp [hv]
  constructor
  · intro htog
    have htog' : ((mergeDefaults env.cwd config).checkProgramForErrors).getD false = true := by
      rw [htog]
      rfl
    constructor
    · unfold typescriptRoutesToOpenApi typescriptRoutesToOpenApiWith
      simp only []
      rw [if_neg hv']
      exact traceOf_runPipelineSteps_check_first env (mergeDefaults env.cwd config)
        (overridePreviouslyGeneratedRoutesFile (mergeDefaults env.cwd config) ⟨fs, []⟩) htog'
    · intro e hce
      unfold typescriptRoutesToOpenApi typescriptRoutesToOpenApiWith
      simp only []
      rw [if_neg hv']
      unfold runPipelineSteps
      rw [if_pos htog', hce]
      rfl
  · intro htog
    have htog' : ((mergeDefaults env.cwd config).checkProgramForErrors).getD false = false := by
      rw [htog]
      rfl
    have htog'' : ¬ ((mergeDefaults env.cwd config).checkProgramForErrors).getD false = true := by
      rw [htog']
      simp
    constructor
    · intro p hmem
      unfold typescriptRoutesToOpenApi typescriptRoutesToOpenApiWith at hmem
      simp only [] at hmem
      rw [if_neg hv'] at hmem
      obtain ⟨t, ht, hall⟩ := traceOf_runPipelineSteps_extends env (mergeDefaults env.cwd config)
        (overridePreviouslyGeneratedRoutesFile (mergeDefaults env.cwd config) ⟨fs, []⟩)
      rw [ht] at hmem
      rcases List.mem_append.mp hmem with hmem | hmem
      · unfold overridePreviouslyGeneratedRoutesFile at hmem
        by_cases hx : existsSync fs
            (routesPlaceholderPathOf (mergeDefaults env.cwd config)) = true
        · simp [hx, RunState.write] at hmem
        · rw [if_neg (by simpa using hx)] at hmem
          simp at hmem
      · rcases hall _ hmem with ⟨_, hbad⟩ | hbad | ⟨⟨c, hbad⟩, _⟩ | ⟨c, hbad⟩ | ⟨q, hbad⟩
        · exact htog'' hbad
        · exact absurd hbad (by simp)
        · exact absurd hbad (by simp)
        · exact absurd hbad (by simp)
        · exact absurd hbad (by simp)
    · intro f
      unfold typescriptRoutesToOpenApi typescriptRoutesToOpenApiWith
      simp only []
      rw [if_neg hv', if_neg hv']
      unfold runPipelineSteps
      rw [if_neg htog'', if_neg htog'']
      rfl

/-- Witness for `diagnosticsGate`: the concrete run with the toggle disabled
never records a diagnostics check and is checker-independent. -/
theorem diagnosticsGateWitness :
    (∀ p, ¬ Event.checkProgram p ∈
      traceOf (typescriptRoutesToOpenApi envExtractionFails ⟨fsWithOldRoutes, []⟩
        (some cfgExplicit))) ∧
    (∀ f, typescriptRoutesToOpenApi { envExtractionFails with checkProgramForErrors := f }
        ⟨fsWithOldRoutes, []⟩ (some cfgExplicit) =
      typescriptRoutesToOpenApi envExtractionFails ⟨fsWithOldRoutes, []⟩ (some cfgExplicit)) :=
  (diagnosticsGate envExtractionFails fsWithOldRoutes cfgExplicit rfl).2 rfl

/-- An empty filesystem. -/
def fsEmpty : FS :=
  { files := [], dirs := [] }

/-- A collaborator environment whose validator rejects every configuration. -/
def envRejecting : Env :=
  { envExtractionFails with ajvValidate := fun _ => false, ajvErrors := fun _ => "bad config" }

/-- **C4.** For every supplied configuration, the pipeline merges it with the
defaults and validates the merged structure; when validation fails it throws
`Invalid config file: ...` and ends in exactly the initial state — no
analysis, generation, directory creation or file write has happened (the
final state carries the untouched filesystem and an empty trace). -/
theorem invalidConfigRejected (env : Env) (fs : FS) (config : ConfigType)
    (hv : env.ajvValidate (mergeDefaults env.cwd config) = false) :
    typescriptRoutesToOpenApi env ⟨fs, []⟩ (some config) =
      Except.error ("Invalid config file: " ++ env.ajvErrors (mergeDefaults env.cwd config),
        ⟨fs, []⟩) := by
  unfold typescriptRoutesToOpenApi typescriptRoutesToOpenApiWith
  simp only []
  rw [if_pos hv]

/-- Witness for `invalidConfigRejected` at a concrete rejecting validator. -/
theorem invalidConfigRejectedWitness :
    typescriptRoutesToOpenApi envRejecting ⟨fsWithOldRoutes, []⟩ (some cfgExplicit) =
      Except.error ("Invalid config file: " ++
        envRejecting.ajvErrors (mergeDefaults envRejecting.cwd cfgExplicit),
        ⟨fsWithOldRoutes, []⟩) :=
  invalidConfigRejected envRejecting fsWithOldRoutes cfgExplicit rfl

/-- **C9.** When no file exists at the configured routes output path, the
placeholder-replacement step is a no-op: it creates no placeholder and
changes neither the filesystem nor the trace; a validated run simply
continues from the untouched initial state. -/
theorem overrideWithoutExistingFileIsNoop (env : Env) (config : ConfigType) (st : RunState)
    (fs : FS)
    (hst : existsSync st.fs (routesPlaceholderPathOf config) = false)
    (hfs : existsSync fs (routesPlaceholderPathOf (mergeDefaults env.cwd config)) = false)
    (hv : env.ajvValidate (mergeDefaults env.cwd config) = true) :
    overridePreviouslyGeneratedRoutesFile config st = st ∧
    typescriptRoutesToOpenApi env ⟨fs, []⟩ (some config) =
      runPipelineSteps env (mergeDefaults env.cwd config) ⟨fs, []⟩ := by
  constructor
  · unfold overridePreviouslyGeneratedRoutesFile
    rw [if_neg (by simp [hst])]
  · unfold typescriptRoutesToOpenApi typescriptRoutesToOpenApiWith
    simp only []
    rw [if_neg (by simp [hv])]
    unfold overridePreviouslyGeneratedRoutesFile
    rw [if_neg (by simp [hfs])]

/-- Witness for `overrideWithoutExistingFileIsNoop` on the empty filesystem. -/
theorem overrideWithoutExistingFileIsNoopWitness :
    overridePreviouslyGeneratedRoutesFile cfgExplicit ⟨fsEmpty, []⟩ = ⟨fsEmpty, []⟩ ∧
    typescriptRoutesToOpenApi envExtractionFails ⟨fsEmpty, []⟩ (some cfgExplicit) =
      runPipelineSteps envExtractionFails (mergeDefaults envExtractionFails.cwd cfgExplicit)
        ⟨fsEmpty, []⟩ :=
  overrideWithoutExistingFileIsNoop envExtractionFails cfgExplicit ⟨fsEmpty, []⟩ fsEmpty
    rfl rfl rfl

/-- **C7.** `loadConfigFile` throws an error naming the offending path when
the path does not exist and when it exists but is not a regular file; on an
existing regular file it returns exactly what `JSON.parse` produces for the
file content — no defaults are applied and no schema validation happens. -/
theorem loadConfigFileSpec (env : Env) (fs : FS) (configPath : String) :
    (existsSync fs configPath = false →
      loadConfigFile env fs configPath =
        Except.error ("Config file does not exist: " ++ configPath)) ∧
    (existsSync fs configPath = true → statIsFile fs configPath = false →
      loadConfigFile env fs configPath =
        Except.error ("Config needs to be a regular file: " ++ configPath)) ∧
    (∀ content, fs.readFile configPath = some content →
      loadConfigFile env fs configPath = env.jsonParse content) := by
  refine ⟨?_, ?_, ?_⟩
  · intro h
    unfold loadConfigFile
    rw [if_pos h]
  · intro h1 h2
    unfold loadConfigFile
    rw [if_neg (by simp [h1]), if_pos h2]
  · intro content h
    unfold loadConfigFile
    have h1 : ¬ existsSync fs configPath = false := by
      simp [existsSync, h]
    have h2 : ¬ statIsFile fs configPath = false := by
      simp [statIsFile, h]
    rw [if_neg h1, if_neg h2, h]
    rfl

/-- Witness for `loadConfigFileSpec`: a missing config path is rejected with
the path in the message. -/
theorem loadConfigFileSpecWitness :
    loadConfigFile envExtractionFails fsEmpty "/proj/typescript-routes-to-openapi.json" =
      Except.error ("Config file does not exist: " ++ "/proj/typescript-routes-to-openapi.json") :=
  (loadConfigFileSpec envExtractionFails fsEmpty "/proj/typescript-routes-to-openapi.json").1 rfl

/-- A collaborator environment whose `JSON.parse` yields `cfgExplicit`. -/
def envWithConfigFile : Env :=
  { envExtractionFails with jsonParse := fun _ => Except.ok cfgExplicit }

/-- A filesystem holding a config file at the default config path of `/proj`. -/
def fsWithConfigFile : FS :=
  { files := [("/proj/typescript-routes-to-openapi.json", "raw json")], dirs := [] }

/-- **C8.** The effective configuration is the field-wise override of the
defaults by the supplied configuration: every supplied field wins and every
omitted field takes its default (`tsconfig.json`, `generated` and the config
file name resolved against the working directory, `openapi.json`,
`routes.ts`, both toggles `true`, schema output directory the working
directory itself); calling the entry point without an argument loads the
configuration from `typescript-routes-to-openapi.json` in the working
directory and then behaves exactly like the call with the loaded value. -/
theorem configDefaulting (env : Env) (config : ConfigType) (st : RunState) :
    (∀ c, loadConfigFile env st.fs (defaultConfigPath env) = Except.ok c →
      typescriptRoutesToOpenApi env st none = typescriptRoutesToOpenApi env st (some c)) ∧
    (∀ e, loadConfigFile env st.fs (defaultConfigPath env) = Except.error e →
      typescriptRoutesToOpenApi env st none = Except.error (e, st)) ∧
    defaultConfigPath env = pathJoin env.cwd "typescript-routes-to-openapi.json" ∧
    (mergeDefaults env.cwd config).openapi = config.openapi ∧
    (∀ v, config.tsConfigPath = some v →
      (mergeDefaults env.cwd config).tsConfigPath = some v) ∧
    (config.tsConfigPath = none →
      (mergeDefaults env.cwd config).tsConfigPath = some (pathJoin env.cwd "tsconfig.json")) ∧
    (∀ v, config.generateOpenApiSchema = some v →
      (mergeDefaults env.cwd config).generateOpenApiSchema = some v) ∧
    (config.generateOpenApiSchema = none →
      (mergeDefaults env.cwd config).generateOpenApiSchema = some true) ∧
    (∀ v, config.checkProgramForErrors = some v →
      (mergeDefaults env.cwd config).checkProgramForErrors = some v) ∧
    (config.checkProgramForErrors = none →
      (mergeDefaults env.cwd config).checkProgramForErrors = some true) ∧
    (∀ v, config.schemaOutputFileName = some v →
      (mergeDefaults env.cwd config).schemaOutputFileName = some v) ∧
    (config.schemaOutputFileName = none →
      (mergeDefaults env.cwd config).schemaOutputFileName = some "openapi.json") ∧
    (∀ v, config.routesOutputDir = some v →
      (mergeDefaults env.cwd config).routesOutputDir = some v) ∧
    (config.routesOutputDir = none →
      (mergeDefaults env.cwd config).routesOutputDir = some (pathJoin env.cwd "generated")) ∧
    (∀ v, config.routesOutputFileName = some v →
      (mergeDefaults env.cwd config).routesOutputFileName = some v) ∧
    (config.routesOutputFileName = none →
      (mergeDefaults env.cwd config).routesOutputFileName = some "routes.ts") ∧
    (∀ v, config.schemaOutputDir = some v →
      (mergeDefaults env.cwd config).schemaOutputDir = some v) ∧
    (config.schemaOutputDir = none →
      (mergeDefaults env.cwd config).schemaOutputDir = some env.cwd) := by
  refine ⟨?_, ?_, rfl, rfl, ?_, ?_, ?_, ?_, ?_, ?_, ?_, ?_, ?_, ?_, ?_, ?_, ?_, ?_⟩
  · intro c h
    unfold typescriptRoutesToOpenApi
    rw [h]
  · intro e h
    unfold typescriptRoutesToOpenApi
    rw [h]
  all_goals first
    | (intro v h; simp [mergeDefaults, h])
    | (intro h; simp [mergeDefaults, h])

/-- Witness for `configDefaulting`: the no-argument call equals the call with
the loaded configuration. -/
theorem configDefaultingWitness :
    typescriptRoutesToOpenApi envWithConfigFile ⟨fsWithConfigFile, []⟩ none =
      typescriptRoutesToOpenApi envWithConfigFile ⟨fsWithConfigFile, []⟩ (some cfgExplicit) :=
  (configDefaulting envWithConfigFile cfgExplicit ⟨fsWithConfigFile, []⟩).1 cfgExplicit rfl

/-- **C6.** Document assembly is deterministic and order-normalising: the
serialization is a pure function applied to the routes after the stable sort
by method then path (first conjunct, definitional); the assembled route list
is sorted under the method-then-path order (second), is a permutation of the
input routes (third), and the sort is stable — any two routes appearing in
order in the input and already ordered by the key keep their relative order
(fourth).  Hence identical (routes, registry, metadata) inputs always produce
byte-identical serialized Documents. -/
theorem documentAssemblyDeterministic (routes : List Route) (registry metadata : String) :
    serializeDocumentSpec (assembleDocumentSpec routes registry metadata) =
      serializeDocumentSpec
        { sortedRoutes := sortRoutes routes, registry := registry, metadata := metadata } ∧
    List.Sorted routeLe (assembleDocumentSpec routes registry metadata).sortedRoutes ∧
    List.Perm (assembleDocumentSpec routes registry metadata).sortedRoutes routes ∧
    (∀ a b, routeLe a b → List.Sublist [a, b] routes →
      List.Sublist [a, b] (assembleDocumentSpec routes registry metadata).sortedRoutes) := by
  refine ⟨rfl, ?_, ?_, ?_⟩
  · exact List.sorted_insertionSort routeLe routes
  · exact List.perm_insertionSort routeLe routes
  · intro a b hab hsub
    exact List.pair_sublist_insertionSort hab hsub

/-- Witness for `documentAssemblyDeterministic` on a concrete route list. -/
theorem documentAssemblyDeterministicWitness :
    List.Sorted routeLe
      (assembleDocumentSpec [⟨"POST", "/b", "x"⟩, ⟨"GET", "/a", "y"⟩] "reg" "meta").sortedRoutes :=
  (documentAssemblyDeterministic [⟨"POST", "/b", "x"⟩, ⟨"GET", "/a", "y"⟩] "reg" "meta").2.1

theorem run_ok_readFile (env : Env) (fs : FS) (config : ConfigType) (st' : RunState)
    (h : typescriptRoutesToOpenApi env ⟨fs, []⟩ (some config) = Except.ok st') :
    ∃ routes out,
      env.getRoutes (tsPathOf (mergeDefaults env.cwd config)) = Except.ok routes ∧
      env.generateRoutes routes (routesDirOf env (mergeDefaults env.cwd config)) =
        Except.ok out ∧
      st'.fs.readFile (routesFilePathOf env (mergeDefaults env.cwd config)) = some out := by
  unfold typescriptRoutesToOpenApi typescriptRoutesToOpenApiWith at h
  simp only [] at h
  by_cases hv : env.ajvValidate (mergeDefaults env.cwd config) = false
  · rw [if_pos hv] at h
    exact absurd h (by simp)
  · rw [if_neg hv] at h
    exact runPipelineSteps_ok_readFile env _ _ st' h

theorem runExtraction_genDoc_irrel (env : Env)
    (g : List Route → String → Except String String) (config : ConfigType) (st : RunState)
    (htog : (config.generateOpenApiSchema).getD true = false) :
    runExtraction { env with generateOpenApiDocument := g } config st =
      runExtraction env config st := by
  have h : ¬ (config.generateOpenApiSchema).getD true = true := by
    simp [htog]
  unfold runExtraction
  simp only []
  cases hr : env.getRoutes (tsPathOf config) with
  | error e => rfl
  | ok routes =>
    simp only []
    rw [if_neg h, if_neg h]
    rfl

theorem runPipelineSteps_genDoc_irrel (env : Env)
    (g : List Route → String → Except String String) (config : ConfigType) (st : RunState)
    (htog : (config.generateOpenApiSchema).getD true = false) :
    runPipelineSteps { env with generateOpenApiDocument := g } config st =
      runPipelineSteps env config st := by
  unfold runPipelineSteps
  simp only []
  by_cases hc : (config.checkProgramForErrors).getD false = true
  · rw [if_pos hc, if_pos hc]
    cases hcp : env.checkProgramForErrors (tsPathOf config) with
    | error e => rfl
    | ok u => exact runExtraction_genDoc_irrel env g config _ htog
  · rw [if_neg hc, if_neg hc]
    exact runExtraction_genDoc_irrel env g config st htog

theorem run_genDoc_irrel (env : Env) (g : List Route → String → Except String String)
    (fs : FS) (config : ConfigType)
    (htog : config.generateOpenApiSchema = some false) :
    typescriptRoutesToOpenApi { env with generateOpenApiDocument := g } ⟨fs, []⟩
        (some config) =
      typescriptRoutesToOpenApi env ⟨fs, []⟩ (some config) := by
  have hm : ((mergeDefaults env.cwd config).generateOpenApiSchema).getD true = false := by
    simp [mergeDefaults, htog]
  unfold typescriptRoutesToOpenApi typescriptRoutesToOpenApiWith
  simp only []
  by_cases hv : env.ajvValidate (mergeDefaults env.cwd config) = false
  · rw [if_pos hv, if_pos hv]
  · rw [if_neg hv, if_neg hv]
    exact runPipelineSteps_genDoc_irrel env g (mergeDefaults env.cwd config) _ hm

theorem runExtraction_ok_schemaFile (env : Env) (config : ConfigType) (st st' : RunState)
    (htog : (config.generateOpenApiSchema).getD true = true)
    (hne : ¬ schemaPathOf config = routesFilePathOf env config)
    (h : runExtraction env config st = Except.ok st') :
    ∃ routes doc, env.getRoutes (tsPathOf config) = Except.ok routes ∧
      env.generateOpenApiDocument routes config.openapi = Except.ok doc ∧
      st'.fs.readFile (schemaPathOf config) = some doc := by
  unfold runExtraction at h
  cases hr : env.getRoutes (tsPathOf config) with
  | error e =>
    rw [hr] at h
    exact absurd h (by simp)
  | ok routes =>
    rw [hr] at h
    simp only [] at h
    rw [if_pos htog] at h
    cases hmid : _generateOpenApiDocument env config routes (st.noteGetRoutes (tsPathOf config)) with
    | error e =>
      rw [hmid] at h
      exact absurd h (by simp)
    | ok st2 =>
      rw [hmid] at h
      obtain ⟨doc, hdoc, hfs⟩ := _generateOpenApiDocument_ok_fs env config routes _ st2 hmid
      refine ⟨routes, doc, rfl, hdoc, ?_⟩
      rw [_generateRoutes_ok_readFile_ne env config routes st2 st' (schemaPathOf config) hne h,
        hfs, readFile_writeFileSync_self]

theorem runPipelineSteps_ok_schemaFile (env : Env) (config : ConfigType) (st st' : RunState)
    (htog : (config.generateOpenApiSchema).getD true = true)
    (hne : ¬ schemaPathOf config = routesFilePathOf env config)
    (h : runPipelineSteps env config st = Except.ok st') :
    ∃ routes doc, env.getRoutes (tsPathOf config) = Except.ok routes ∧
      env.generateOpenApiDocument routes config.openapi = Except.ok doc ∧
      st'.fs.readFile (schemaPathOf config) = some doc := by
  unfold runPipelineSteps at h
  by_cases hc : (config.checkProgramForErrors).getD false = true
  · rw [if_pos hc] at h
    cases hcp : env.checkProgramForErrors (tsPathOf config) with
    | error e =>
      rw [hcp] at h
      exact absurd h (by simp)
    | ok u =>
      rw [hcp] at h
      exact runExtraction_ok_schemaFile env config _ st' htog hne h
  · rw [if_neg hc] at h
    exact runExtraction_ok_schemaFile env config st st' htog hne h

theorem run_ok_schemaFile (env : Env) (fs : FS) (config : ConfigType) (st' : RunState)
    (htog : ((mergeDefaults env.cwd config).generateOpenApiSchema).getD true = true)
    (hne : ¬ schemaPathOf (mergeDefaults env.cwd config) =
      routesFilePathOf env (mergeDefaults env.cwd config))
    (h : typescriptRoutesToOpenApi env ⟨fs, []⟩ (some config) = Except.ok st') :
    ∃ routes doc,
      env.getRoutes (tsPathOf (mergeDefaults env.cwd config)) = Except.ok routes ∧
      env.generateOpenApiDocument routes (mergeDefaults env.cwd config).openapi =
        Except.ok doc ∧
      st'.fs.readFile (schemaPathOf (mergeDefaults env.cwd config)) = some doc := by
  unfold typescriptRoutesToOpenApi typescriptRoutesToOpenApiWith at h
  simp only [] at h
  by_cases hv : env.ajvValidate (mergeDefaults env.cwd config) = false
  · rw [if_pos hv] at h
    exact absurd h (by simp)
  · rw [if_neg hv] at h
    exact runPipelineSteps_ok_schemaFile env _ _ st' htog hne h

/-- **C5.** With `generateOpenApiSchema` set to `false`, no contract document
is generated or written: the run is independent of the document generator
(first conjunct) and its trace contains no write to the schema output path
(second, for distinct output paths); the routes-registration source is still
generated and written with exactly the content the toggle-`true` run writes
(third).  An absent toggle defaults to `true` (fourth), in which case a
successful run has the generated document at the schema output path
(fifth). -/
theorem generateOpenApiSchemaToggle (env : Env) (fs : FS) (config : ConfigType)
    (htog : config.generateOpenApiSchema = some false)
    (hv : env.ajvValidate (mergeDefaults env.cwd config) = true) :
    (∀ g, typescriptRoutesToOpenApi { env with generateOpenApiDocument := g } ⟨fs, []⟩
        (some config) =
      typescriptRoutesToOpenApi env ⟨fs, []⟩ (some config)) ∧
    (¬ schemaPathOf (mergeDefaults env.cwd config) =
        routesPlaceholderPathOf (mergeDefaults env.cwd config) →
      ¬ schemaPathOf (mergeDefaults env.cwd config) =
        routesFilePathOf env (mergeDefaults env.cwd config) →
      ∀ c, ¬ Event.write (schemaPathOf (mergeDefaults env.cwd config)) c ∈
        traceOf (typescriptRoutesToOpenApi env ⟨fs, []⟩ (some config))) ∧
    (∀ stF stT,
      typescriptRoutesToOpenApi env ⟨fs, []⟩ (some config) = Except.ok stF →
      typescriptRoutesToOpenApi env ⟨fs, []⟩
        (some { config with generateOpenApiSchema := some true }) = Except.ok stT →
      stF.fs.readFile (routesFilePathOf env (mergeDefaults env.cwd config)) =
        stT.fs.readFile (routesFilePathOf env (mergeDefaults env.cwd config))) ∧
    (mergeDefaults env.cwd
      { config with generateOpenApiSchema := none }).generateOpenApiSchema = some true ∧
    (¬ schemaPathOf (mergeDefaults env.cwd config) =
        routesFilePathOf env (mergeDefaults env.cwd config) →
      ∀ stT, typescriptRoutesToOpenApi env ⟨fs, []⟩
          (some { config with generateOpenApiSchema := some true }) = Except.ok stT →
        ∃ routes doc,
          env.getRoutes (tsPathOf (mergeDefaults env.cwd config)) = Except.ok routes ∧
          env.generateOpenApiDocument routes (mergeDefaults env.cwd config).openapi =
            Except.ok doc ∧
          stT.fs.readFile (schemaPathOf (mergeDefaults env.cwd config)) = some doc) := by
  have hm : ((mergeDefaults env.cwd config).generateOpenApiSchema).getD true = false := by
    simp [mergeDefaults, htog]
  refine ⟨?_, ?_, ?_, by simp [mergeDefaults], ?_⟩
  · intro g
    exact run_genDoc_irrel env g fs config htog
  · intro hne1 hne2 c hmem
    unfold typescriptRoutesToOpenApi typescriptRoutesToOpenApiWith at hmem
    simp only [] at hmem
    rw [if_neg (by simp [hv])] at hmem
    obtain ⟨t, ht, hall⟩ := traceOf_runPipelineSteps_extends env (mergeDefaults env.cwd config)
      (overridePreviouslyGeneratedRoutesFile (mergeDefaults env.cwd config) ⟨fs, []⟩)
    rw [ht] at hmem
    rcases List.mem_append.mp hmem with hmem | hmem
    · unfold overridePreviouslyGeneratedRoutesFile at hmem
      by_cases hx : existsSync fs
          (routesPlaceholderPathOf (mergeDefaults env.cwd config)) = true
      · simp [hx, RunState.write] at hmem
        exact hne1 hmem.1
      · simp [hx] at hmem
    · rcases hall _ hmem with ⟨hbad, _⟩ | hbad | ⟨⟨c2, hbad⟩, htogt⟩ | ⟨c2, hbad⟩ | ⟨q, hbad⟩
      · exact absurd hbad (by simp)
      · exact absurd hbad (by simp)
      · rw [hm] at htogt
        exact absurd htogt (by simp)
      · simp only [Event.write.injEq] at hbad
        exact hne2 hbad.1
      · exact absurd hbad (by simp)
  · intro stF stT hF hT
    obtain ⟨routesF, outF, hrF, hoF, hreadF⟩ := run_ok_readFile env fs config stF hF
    obtain ⟨routesT, outT, hrT, hoT, hreadT⟩ := run_ok_readFile env fs
      { config with generateOpenApiSchema := some true } stT hT
    have hroutes : routesF = routesT := by
      have h0 : Except.ok (ε := String) routesF = Except.ok routesT := hrF.symm.trans hrT
      simpa using h0
    subst hroutes
    have hout : outF = outT := by
      have h0 : Except.ok (ε := String) outF = Except.ok outT := hoF.symm.trans hoT
      simpa using h0
    subst hout
    rw [hreadF]
    exact hreadT.symm
  · intro hne stT hT
    have htogT : ((mergeDefaults env.cwd
        { config with generateOpenApiSchema := some true }).generateOpenApiSchema).getD true =
        true := by
      simp [mergeDefaults]
    obtain ⟨routes, doc, hr, hdoc, hread⟩ := run_ok_schemaFile env fs
      { config with generateOpenApiSchema := some true } stT htogT hne hT
    exact ⟨routes, doc, hr, hdoc, hread⟩

/-- A collaborator environment in which every step succeeds. -/
def envAllOk : Env :=
  { cwd := "/proj"
    ajvValidate := fun _ => true
    ajvErrors := fun _ => ""
    checkProgramForErrors := fun _ => Except.ok ()
    getRoutes := fun _ => Except.ok []
    generateOpenApiDocument := fun _ _ => Except.ok "document"
    generateRoutes := fun _ _ => Except.ok "routes source"
    jsonParse := fun _ => Except.error "unused" }

/-- `cfgExplicit` with contract emission turned off. -/
def cfgNoSchema : ConfigType :=
  { cfgExplicit with generateOpenApiSchema := some false }

/-- The final state of a successful run (dummy on a failed one). -/
def okStateOf (r : Except (String × RunState) RunState) : RunState :=
  match r with
  | Except.ok st => st
  | Except.error e => e.2

/-- Witness for `generateOpenApiSchemaToggle`: the routes file written by the
toggle-`false` run has the same content the toggle-`true` run writes. -/
theorem generateOpenApiSchemaToggleWitness :
    (okStateOf (typescriptRoutesToOpenApi envAllOk ⟨fsEmpty, []⟩
        (some cfgNoSchema))).fs.readFile
      (routesFilePathOf envAllOk (mergeDefaults envAllOk.cwd cfgNoSchema)) =
    (okStateOf (typescriptRoutesToOpenApi envAllOk ⟨fsEmpty, []⟩
        (some { cfgNoSchema with generateOpenApiSchema := some true }))).fs.readFile
      (routesFilePathOf envAllOk (mergeDefaults envAllOk.cwd cfgNoSchema)) :=
  (generateOpenApiSchemaToggle envAllOk fsEmpty cfgNoSchema rfl rfl).2.2.1
    (okStateOf (typescriptRoutesToOpenApi envAllOk ⟨fsEmpty, []⟩ (some cfgNoSchema)))
    (okStateOf (typescriptRoutesToOpenApi envAllOk ⟨fsEmpty, []⟩
      (some { cfgNoSchema with generateOpenApiSchema := some true })))
    rfl rfl

end TsRoutesToOpenApi
